import Mathlib

/-
  Verification development for the web-ingestion Kafka consumer
  (src/web-ingestion/app/consumer-sfmc.py).

  The Python program is shallowly embedded: each function of the consumer is
  translated to an executable Lean definition over explicit state, and the
  frozen claims about the program are settled as theorems over those
  definitions.  Python dicts (`bulk_events`, `bulk_timers`) are association
  lists with the usual dict semantics; exceptions are explicit (`Except` /
  `Option PyExc`); external library calls (Kafka poll results, `json.loads`
  on a raw payload, the HTTP response of `requests.post`) are inputs to the
  embedded functions, carrying exactly the information the source inspects.
-/

/-- The fixed bulk-window delay, seconds: `threading.Timer(120, ...)`. -/
def WINDOW_DELAY : Nat := 120

/-- Correlation key: `event_data.get('JourneyID')` — `none` when the payload
    has no `JourneyID` field (Python `None`). -/
abbrev Key := Option String

/-- A decoded event: a Python dict with string keys and (here) string scalar
    values, in insertion order, as produced by `json.loads`. -/
abbrev Event := List (String × String)

/-- Python `d.get(field)` on a dict represented as an association list. -/
def dict_get (event_data : Event) (field : String) : Option String :=
  match event_data with
  | [] => none
  | (f, v) :: rest => if f = field then some v else dict_get rest field

/-- Python `str(x)` on an optional string: `str(None) = "None"`, used by the
    f-string `f'/tmp/{journey_id}.csv'`. -/
def pyStr : Key → String
  | none => "None"
  | some s => s

/-- Python `json.dumps` on a flat string-to-string dict:
    `json.dumps({'a': 'b'}) = '\x7b"a": "b"\x7d'`. -/
def json_dumps (event_data : Event) : String :=
  "\x7b" ++
    String.intercalate ", "
      (event_data.map (fun p => "\"" ++ p.1 ++ "\": \"" ++ p.2 ++ "\"")) ++
  "\x7d"

namespace Dict

variable {κ α : Type} [DecidableEq κ]

/-- Dict lookup `m[k]` / `m.get(k)`. -/
def lookup : List (κ × α) → κ → Option α
  | [], _ => none
  | (k', v) :: m, k => if k' = k then some v else lookup m k

/-- Dict membership `k in m`. -/
def contains (m : List (κ × α)) (k : κ) : Bool :=
  (lookup m k).isSome

/-- Dict assignment `m[k] = v`: replaces the entry for `k`, or appends a new
    entry at the end (dicts preserve insertion order). -/
def insert : List (κ × α) → κ → α → List (κ × α)
  | [], k, v => [(k, v)]
  | (k', v') :: m, k, v =>
      if k' = k then (k, v) :: m else (k', v') :: insert m k v

/-- The removal effect of `m.pop(k, default)` / `m.pop(k)`. -/
def erase : List (κ × α) → κ → List (κ × α)
  | [], _ => []
  | (k', v') :: m, k =>
      if k' = k then erase m k else (k', v') :: erase m k

/-- In-place mutation of the entry for `k` (e.g. `m[k].append(x)`). -/
def update : List (κ × α) → κ → (α → α) → List (κ × α)
  | [], _, _ => []
  | (k', v) :: m, k, f =>
      if k' = k then (k', f v) :: m else (k', v) :: update m k f

theorem lookup_insert (m : List (κ × α)) (k k' : κ) (v : α) :
    lookup (insert m k v) k' = if k = k' then some v else lookup m k' := by
  induction m with
  | nil => simp [insert, lookup]
  | cons p m ih =>
      obtain ⟨k₀, v₀⟩ := p
      by_cases h0 : k₀ = k
      · subst h0
        by_cases h1 : k₀ = k'
        · subst h1; simp [insert, lookup]
        · simp [insert, lookup, h1]
      · by_cases h1 : k₀ = k'
        · subst h1
          simp [insert, lookup, h0, Ne.symm h0]
        · simp [insert, lookup, h0, h1, ih]

theorem lookup_erase (m : List (κ × α)) (k k' : κ) :
    lookup (erase m k) k' = if k = k' then none else lookup m k' := by
  induction m with
  | nil => simp [erase, lookup]
  | cons p m ih =>
      obtain ⟨k₀, v₀⟩ := p
      by_cases h0 : k₀ = k
      · subst h0
        by_cases h1 : k₀ = k'
        · subst h1; simp [erase, lookup, ih]
        · simp [erase, lookup, h1, ih, Ne.symm h1]
      · by_cases h1 : k₀ = k'
        · subst h1
          simp [erase, lookup, h0, Ne.symm h0]
        · simp [erase, lookup, h0, h1, ih]

theorem lookup_update (m : List (κ × α)) (k k' : κ) (f : α → α) :
    lookup (update m k f) k' =
      if k = k' then (lookup m k').map f else lookup m k' := by
  induction m with
  | nil => simp [update, lookup]
  | cons p m ih =>
      obtain ⟨k₀, v₀⟩ := p
      by_cases h0 : k₀ = k
      · subst h0
        by_cases h1 : k₀ = k'
        · subst h1; simp [update, lookup]
        · simp [update, lookup, h1]
      · by_cases h1 : k₀ = k'
        · subst h1
          simp [update, lookup, h0, Ne.symm h0]
        · simp [update, lookup, h0, h1, ih]

theorem contains_insert (m : List (κ × α)) (k k' : κ) (v : α) :
    contains (insert m k v) k' = if k = k' then true else contains m k' := by
  by_cases h : k = k' <;> simp [contains, lookup_insert, h]

theorem contains_erase (m : List (κ × α)) (k k' : κ) :
    contains (erase m k) k' = if k = k' then false else contains m k' := by
  by_cases h : k = k' <;> simp [contains, lookup_erase, h]

theorem contains_update (m : List (κ × α)) (k k' : κ) (f : α → α) :
    contains (update m k f) k' = contains m k' := by
  by_cases h : k = k' <;> simp [contains, lookup_update, h]

theorem keys_update (m : List (κ × α)) (k : κ) (f : α → α) :
    (update m k f).map Prod.fst = m.map Prod.fst := by
  induction m with
  | nil => simp [update]
  | cons p m ih =>
      obtain ⟨k₀, v₀⟩ := p
      by_cases h0 : k₀ = k <;> simp [update, h0, ih]

theorem contains_false_not_mem (m : List (κ × α)) (k : κ)
    (h : contains m k = false) : k ∉ m.map Prod.fst := by
  induction m with
  | nil => simp
  | cons p m ih =>
      obtain ⟨k₀, v₀⟩ := p
      by_cases h0 : k₀ = k
      · subst h0; simp [contains, lookup] at h
      · simp [contains, lookup, h0] at h
        simpa [h0, Ne.symm h0] using ih (by simpa [contains] using h)

theorem keys_insert_of_not_contains (m : List (κ × α)) (k : κ) (v : α)
    (h : contains m k = false) :
    (insert m k v).map Prod.fst = m.map Prod.fst ++ [k] := by
  induction m with
  | nil => simp [insert]
  | cons p m ih =>
      obtain ⟨k₀, v₀⟩ := p
      by_cases h0 : k₀ = k
      · subst h0; simp [contains, lookup] at h
      · simp [contains, lookup, h0] at h
        simp [insert, h0, ih (by simpa [contains] using h)]

theorem keys_insert_of_contains (m : List (κ × α)) (k : κ) (v : α)
    (h : contains m k = true) :
    (insert m k v).map Prod.fst = m.map Prod.fst := by
  induction m with
  | nil => simp [contains, lookup] at h
  | cons p m ih =>
      obtain ⟨k₀, v₀⟩ := p
      by_cases h0 : k₀ = k
      · subst h0; simp [insert]
      · simp [contains, lookup, h0] at h
        simp [insert, h0, ih (by simpa [contains] using h)]

theorem nodup_keys_insert (m : List (κ × α)) (k : κ) (v : α)
    (h : (m.map Prod.fst).Nodup) :
    ((insert m k v).map Prod.fst).Nodup := by
  by_cases hc : contains m k = true
  · rw [keys_insert_of_contains m k v hc]; exact h
  · have hk := contains_false_not_mem m k (by simpa using hc)
    rw [keys_insert_of_not_contains m k v (by simpa using hc)]
    exact h.append (List.nodup_singleton k)
      (fun a ha hb => hk ((List.mem_singleton.mp hb) ▸ ha))

theorem keys_erase_sublist (m : List (κ × α)) (k : κ) :
    ((erase m k).map Prod.fst).Sublist (m.map Prod.fst) := by
  induction m with
  | nil => simp [erase]
  | cons p m ih =>
      obtain ⟨k₀, v₀⟩ := p
      by_cases h0 : k₀ = k
      · simp only [erase, h0, if_pos rfl, List.map_cons]
        exact ih.trans (List.sublist_cons_self _ _)
      · simp only [erase, h0, if_neg h0, List.map_cons]
        exact ih.cons₂ _

theorem nodup_keys_erase (m : List (κ × α)) (k : κ)
    (h : (m.map Prod.fst).Nodup) :
    ((erase m k).map Prod.fst).Nodup :=
  (keys_erase_sublist m k).nodup h

end Dict

/-- A scheduled flush: `threading.Timer(120, export_bulk_events, [journey_id])`,
    recorded by the instant at which it was created and started. -/
structure Timer where
  scheduledAt : Nat
  deriving Repr, DecidableEq

/-- The timer fires `WINDOW_DELAY` seconds after its creation. -/
def Timer.deadline (tm : Timer) : Nat := tm.scheduledAt + WINDOW_DELAY

/-- The shared aggregator state: the module-level dicts `bulk_events`
    (key → buffered events) and `bulk_timers` (key → scheduled flush).
    All accesses in the source are guarded by the single `bulk_lock`, so each
    embedded operation acts atomically on this state. -/
structure AggState where
  bulk_events : List (Key × List Event)
  bulk_timers : List (Key × Timer)
  deriving Repr, DecidableEq

/-- The initial (empty) aggregator state. -/
def emptyAgg : AggState := ⟨[], []⟩

/-- `add_bulk_event(journey_id, event_data)` at instant `now`: under
    `bulk_lock`, if the key has no window, create an empty buffer and start a
    120-second flush timer; then append the event to the key's buffer. -/
def add_bulk_event (now : Nat) (journey_id : Key) (event_data : Event)
    (st : AggState) : AggState :=
  let st1 :=
    if Dict.contains st.bulk_events journey_id then st
    else
      { bulk_events := Dict.insert st.bulk_events journey_id [],
        bulk_timers := Dict.insert st.bulk_timers journey_id ⟨now⟩ }
  { st1 with
      bulk_events :=
        Dict.update st1.bulk_events journey_id (fun buf => buf ++ [event_data]) }

/-- The critical section of `export_bulk_events(journey_id)`: under
    `bulk_lock`, `events = bulk_events.pop(journey_id, [])` and the timer
    entry is popped and cancelled (popping an absent timer is a no-op, so the
    source's membership test folds into `Dict.erase`).  Returns the new state
    and, when the detached buffer is non-empty (`if events:`), the buffer that
    is handed to CSV generation and upload outside the lock. -/
def export_bulk_events (journey_id : Key) (st : AggState) :
    AggState × Option (List Event) :=
  let events := (Dict.lookup st.bulk_events journey_id).getD []
  let st' : AggState :=
    { bulk_events := Dict.erase st.bulk_events journey_id,
      bulk_timers := Dict.erase st.bulk_timers journey_id }
  (st', if events = [] then none else some events)

/-- Python exceptions the embedded code can raise. -/
inductive PyExc
  /-- `UnicodeDecodeError` / `json.JSONDecodeError` from
      `json.loads(msg.value().decode('utf-8'))` on a malformed payload. -/
  | decodeError
  /-- `KafkaException(msg.error())` re-raised for a non-EOF broker error. -/
  | kafkaError (m : String)
  /-- a network-level exception raised by `requests.post`. -/
  | requestsError (m : String)
  /-- `ValueError` from `csv.DictWriter.writerow` (extrasaction `raise`). -/
  | valueError (m : String)
  /-- `IndexError` from `events[0]` on an empty list. -/
  | indexError
  /-- `FileNotFoundError` from `os.unlink` on a missing path. -/
  | fileNotFoundError (path : String)
  deriving Repr, DecidableEq

/-- The message text `str(e)` used when an exception is interpolated into an
    f-string log line. -/
def excText : PyExc → String
  | .decodeError => "Expecting value: line 1 column 1 (char 0)"
  | .kafkaError m => m
  | .requestsError m => m
  | .valueError m => m
  | .indexError => "list index out of range"
  | .fileNotFoundError p => "No such file or directory: " ++ p

/-- The tabular artifact written by `generate_csv`: its local path, the
    header row, and the data rows. -/
structure CsvFile where
  path : String
  header : List String
  rows : List (List String)
  deriving Repr, DecidableEq

/-- One row of `csv.DictWriter.writerow(event)`: with the default
    `extrasaction` a field of the event that is not among `fieldnames` raises
    `ValueError`; a missing field is written as the default rest value
    (rendered as the empty cell). -/
def dictwriter_row (fieldnames : List String) (event : Event) :
    Except PyExc (List String) :=
  if ∀ p ∈ event, p.1 ∈ fieldnames then
    .ok (fieldnames.map (fun f => (dict_get event f).getD ""))
  else .error (.valueError "dict contains fields not in fieldnames")

/-- The `for event in events: writer.writerow(event)` loop; the first
    `ValueError` aborts CSV generation. -/
def writerows (fieldnames : List String) : List Event →
    Except PyExc (List (List String))
  | [] => .ok []
  | e :: es =>
      match dictwriter_row fieldnames e with
      | .error exc => .error exc
      | .ok r =>
          match writerows fieldnames es with
          | .error exc => .error exc
          | .ok rs => .ok (r :: rs)

/-- `generate_csv(journey_id, events)`: the path is the f-string
    `f'/tmp/{journey_id}.csv'`; `fieldnames = events[0].keys()` (raising
    `IndexError` on an empty list); a header row and one data row per event
    are written and the path returned. -/
def generate_csv (journey_id : Key) (events : List Event) :
    Except PyExc CsvFile :=
  let csv_file_path := "/tmp/" ++ pyStr journey_id ++ ".csv"
  match events with
  | [] => .error .indexError
  | e0 :: _ =>
      let fieldnames := e0.map Prod.fst
      match writerows fieldnames events with
      | .error exc => .error exc
      | .ok rows => .ok ⟨csv_file_path, fieldnames, rows⟩

/-- The arguments of a sink-upload call. -/
structure UploadCall where
  file_path : String
  journey_id : Key
  deriving Repr, DecidableEq

/-- Modelled from the spec: the sink upload `Upload(key, path) -> error` is an
    external boundary call; in the source, the body of `upload_to_s3` is
    commented out and only the call site
    `upload_to_s3(csv_file_path, journey_id)` remains, so the call is
    modelled opaquely as the record of its arguments. -/
def upload_to_s3 (file_path : String) (journey_id : Key) : UploadCall :=
  ⟨file_path, journey_id⟩

/-- The export stage run outside the lock for a non-empty detached buffer:
    `csv_file_path = generate_csv(journey_id, events)` followed by
    `upload_to_s3(csv_file_path, journey_id)`. -/
def run_export (journey_id : Key) (events : List Event) :
    Except PyExc (CsvFile × UploadCall) :=
  match generate_csv journey_id events with
  | .error exc => .error exc
  | .ok csv => .ok (csv, upload_to_s3 csv.path journey_id)

/-- Levels of the `logging` calls appearing in the source (plus `warning`,
    which the source never emits). -/
inductive LogLevel
  | debug
  | info
  | warning
  | error
  deriving Repr, DecidableEq

/-- One emitted log line. -/
structure LogLine where
  level : LogLevel
  msg : String
  deriving Repr, DecidableEq

/-- The outcome of the `requests.post` call inside `send_to_sfmc`, supplied
    by the environment: an HTTP response (status code and text) or a raised
    network exception. -/
inductive HttpOutcome
  | response (status : Nat) (text : String)
  | netFail (m : String)
  deriving Repr, DecidableEq

/-- `send_to_sfmc(event_data)` given the outcome of its `requests.post`:
    a 200 response logs success, any other status logs an error (no retry,
    no exception); a network failure propagates as an exception. -/
def send_to_sfmc (event_data : String) (outcome : HttpOutcome) :
    List LogLine × Option PyExc :=
  match outcome with
  | .response status text =>
      if status = 200 then
        ([⟨.info, "Event sent to SFMC successfully"⟩], none)
      else
        ([⟨.error, "Error sending event to SFMC: " ++ toString status ++ " " ++ text⟩],
         none)
  | .netFail m => ([], some (.requestsError m))

/-- The observable effect of `handle_event(event_data)`: log lines emitted,
    the aggregator state after the call, the `requests.post` calls made
    (body and outcome), and an exception if one propagated. -/
structure HandleOut where
  logs : List LogLine
  agg : AggState
  forwards : List (String × HttpOutcome)
  exc : Option PyExc
  deriving Repr, DecidableEq

/-- `handle_event(event_data)` at instant `now`:
    `type == 'stream'` → `send_to_sfmc(json.dumps(event_data))`;
    `type == 'bulk'` → `add_bulk_event(journey_id, event_data)`;
    any other or missing type → no call, no log (the if/elif has no else). -/
def handle_event (now : Nat) (http : HttpOutcome) (event_data : Event)
    (st : AggState) : HandleOut :=
  let event_type := dict_get event_data "type"
  let journey_id := dict_get event_data "JourneyID"
  if event_type = some "stream" then
    let body := json_dumps event_data
    let (lgs, exc) := send_to_sfmc body http
    ⟨lgs, st, [(body, http)], exc⟩
  else if event_type = some "bulk" then
    ⟨[], add_bulk_event now journey_id event_data st, [], none⟩
  else
    ⟨[], st, [], none⟩

/-- One result of `consumer.poll(timeout=1.0)`, as the loop body inspects it:
    no message; an end-of-partition marker; another broker error (re-raised
    as `KafkaException`); or a message, carrying the instant of arrival, the
    result of `json.loads(msg.value().decode('utf-8'))` (`none` = the decode
    raised), and the HTTP outcome its forward would see. -/
inductive Poll
  | quiet
  | partitionEof (partition : Nat)
  | brokerErr (m : String)
  | message (time : Nat) (decoded : Option Event) (http : HttpOutcome)
  deriving Repr, DecidableEq

/-- The observable outcome of running `consume_messages` over a finite
    sequence of poll results: logs, final aggregator state, `requests.post`
    calls made, and whether the loop terminated (the `except` logged the
    exception and the `finally` ran `consumer.close()`).  `closed = false`
    means the loop is still polling. -/
structure LoopOut where
  logs : List LogLine
  agg : AggState
  forwards : List (String × HttpOutcome)
  closed : Bool
  deriving Repr, DecidableEq

/-- `consume_messages()` over a finite prefix of poll results.  The `try`
    wraps the whole `while True` loop: the first exception raised anywhere in
    the body (broker error, payload decode failure, or a propagated
    `requests.post` failure) is logged as
    `"Error while consuming messages: ..."` and ends the loop, closing the
    consumer; every later poll result goes unprocessed. -/
def consume_messages : List Poll → AggState → LoopOut
  | [], st => ⟨[], st, [], false⟩
  | .quiet :: ps, st => consume_messages ps st
  | .partitionEof part :: ps, st =>
      let r := consume_messages ps st
      ⟨⟨.debug, "End of partition reached " ++ toString part⟩ :: r.logs,
       r.agg, r.forwards, r.closed⟩
  | .brokerErr m :: _, st =>
      ⟨[⟨.error, "Error while consuming messages: " ++ excText (.kafkaError m)⟩],
       st, [], true⟩
  | .message _ none _ :: _, st =>
      ⟨[⟨.error, "Error while consuming messages: " ++ excText .decodeError⟩],
       st, [], true⟩
  | .message time (some e) http :: ps, st =>
      let h := handle_event time http e st
      let lgs := ⟨.info, "Received message: " ++ json_dumps e⟩ :: h.logs
      match h.exc with
      | some exc =>
          ⟨lgs ++ [⟨.error, "Error while consuming messages: " ++ excText exc⟩],
           h.agg, h.forwards, true⟩
      | none =>
          let r := consume_messages ps h.agg
          ⟨lgs ++ r.logs, r.agg, h.forwards ++ r.forwards, r.closed⟩

/-- One timed arrival of a bulk event at the aggregator. -/
structure Arrival where
  time : Nat
  key : Key
  event : Event
  deriving Repr, DecidableEq

/-- One completed flush hand-off: the key and the detached buffer passed to
    the export stage. -/
structure ExportRec where
  key : Key
  events : List Event
  deriving Repr, DecidableEq

/-- Aggregator state together with the flush hand-offs performed so far. -/
structure SysState where
  agg : AggState
  exports : List ExportRec
  deriving Repr, DecidableEq

/-- Run `export_bulk_events` for `k`, recording the hand-off when the
    detached buffer is non-empty. -/
def applyFire (k : Key) (s : SysState) : SysState :=
  let (agg', out) := export_bulk_events k s.agg
  { agg := agg',
    exports := s.exports ++ (match out with
      | some es => [⟨k, es⟩]
      | none => []) }

/-- The keys whose scheduled flush deadline has been reached at instant `t`,
    in timer-creation order (which is nondecreasing-deadline order, since all
    timers share the fixed delay). -/
def dueKeys (timers : List (Key × Timer)) (t : Nat) : List Key :=
  (timers.filter (fun p => decide (p.2.deadline ≤ t))).map Prod.fst

/-- Fire flushes for the listed keys, in order. -/
def fireKeys : List Key → SysState → SysState
  | [], s => s
  | k :: ks, s => fireKeys ks (applyFire k s)

/-- Process one timed arrival: first every timer whose deadline has been
    reached fires (a timer due at the very instant of an arrival fires before
    it), then the arrival is appended via `add_bulk_event`. -/
def stepArrival (s : SysState) (a : Arrival) : SysState :=
  let s1 := fireKeys (dueKeys s.agg.bulk_timers a.time) s
  { s1 with agg := add_bulk_event a.time a.key a.event s1.agg }

/-- The timed semantics of the aggregator over a finite arrival sequence:
    process the arrivals in order from the empty state, then let every
    remaining timer reach its deadline and fire. -/
def runSystem (arrivals : List Arrival) : SysState :=
  let s := arrivals.foldl stepArrival ⟨emptyAgg, []⟩
  fireKeys (s.agg.bulk_timers.map Prod.fst) s

/-- One serialized operation on the shared aggregator state: the two actors
    that touch `bulk_events` / `bulk_timers` under `bulk_lock` are the
    consumer's `add_bulk_event` on arrival and the timer's
    `export_bulk_events` on deadline. -/
inductive AggOp
  | add (now : Nat) (journey_id : Key) (event_data : Event)
  | flush (journey_id : Key)
  deriving Repr, DecidableEq

/-- Apply one serialized operation. -/
def applyOp (st : AggState) : AggOp → AggState
  | .add now k e => add_bulk_event now k e st
  | .flush k => (export_bulk_events k st).1

/-- Run a serialized operation history from the empty state. -/
def runOps (ops : List AggOp) : AggState :=
  ops.foldl applyOp emptyAgg

/-- Whether, after the history `ops`, at least one bulk event for `k` has
    been buffered with no later completed flush for `k` (the life of the
    current window of `k`). -/
def openSince (ops : List AggOp) (k : Key) : Bool :=
  ops.foldl
    (fun b op =>
      match op with
      | .add _ k' _ => if k' = k then true else b
      | .flush k' => if k' = k then false else b)
    false

/-- The state of the process resources touched by `signal_handler`: whether
    `consumer.close()` has run and which of the three `NamedTemporaryFile`
    certificate files still exist on disk. -/
structure ProcState where
  consumerClosed : Bool
  cafileExists : Bool
  certfileExists : Bool
  keyfileExists : Bool
  deriving Repr, DecidableEq

/-- The state at the moment the handlers are installed: consumer open, all
    three temporary credential files on disk. -/
def initialProc : ProcState := ⟨false, true, true, true⟩

/-- How one delivery of SIGINT/SIGTERM ends: `sys.exit(code)` reached, or an
    exception raised part-way through the handler. -/
inductive ShutdownResult
  | exited (code : Nat)
  | raised (exc : PyExc)
  deriving Repr, DecidableEq

/-- `signal_handler(sig, frame)`: closes the consumer (closing is modelled as
    always succeeding), then `os.unlink`s the three temporary files in order
    — `os.unlink` on a path that no longer exists raises
    `FileNotFoundError`, aborting the handler — and finally `sys.exit(0)`. -/
def signal_handler (st : ProcState) : ProcState × ShutdownResult :=
  let st1 := { st with consumerClosed := true }
  if st1.cafileExists = false then
    (st1, .raised (.fileNotFoundError "temp_cafile"))
  else
    let st2 := { st1 with cafileExists := false }
    if st2.certfileExists = false then
      (st2, .raised (.fileNotFoundError "temp_certfile"))
    else
      let st3 := { st2 with certfileExists := false }
      if st3.keyfileExists = false then
        (st3, .raised (.fileNotFoundError "temp_keyfile"))
      else
        ({ st3 with keyfileExists := false }, .exited 0)

/-! ### Helper lemmas about the aggregator operations -/

theorem add_bulk_event_timers_of_contains (now : Nat) (k : Key) (e : Event)
    (st : AggState) (h : Dict.contains st.bulk_events k = true) :
    (add_bulk_event now k e st).bulk_timers = st.bulk_timers := by
  simp [add_bulk_event, h]

theorem add_bulk_event_timers_of_not_contains (now : Nat) (k : Key) (e : Event)
    (st : AggState) (h : Dict.contains st.bulk_events k = false) :
    (add_bulk_event now k e st).bulk_timers =
      Dict.insert st.bulk_timers k ⟨now⟩ := by
  simp [add_bulk_event, h]

theorem lookup_add_bulk_event_self (now : Nat) (k : Key) (e : Event)
    (st : AggState) :
    Dict.lookup (add_bulk_event now k e st).bulk_events k =
      some ((Dict.lookup st.bulk_events k).getD [] ++ [e]) := by
  by_cases h : Dict.contains st.bulk_events k = true
  · have hs := Option.isSome_iff_exists.mp (by simpa [Dict.contains] using h)
    obtain ⟨l, hl⟩ := hs
    simp [add_bulk_event, h, Dict.lookup_update, hl]
  · have h' : Dict.contains st.bulk_events k = false := by simpa using h
    have hnone : Dict.lookup st.bulk_events k = none := by
      simpa [Dict.contains, Option.isSome_iff_exists] using h'
    simp [add_bulk_event, h', Dict.lookup_update, Dict.lookup_insert, hnone]

theorem lookup_add_bulk_event_ne (now : Nat) (k k' : Key) (e : Event)
    (st : AggState) (h : k ≠ k') :
    Dict.lookup (add_bulk_event now k e st).bulk_events k' =
      Dict.lookup st.bulk_events k' := by
  by_cases hc : Dict.contains st.bulk_events k = true
  · simp [add_bulk_event, hc, Dict.lookup_update, h]
  · have h' : Dict.contains st.bulk_events k = false := by simpa using hc
    simp [add_bulk_event, h', Dict.lookup_update, Dict.lookup_insert, h]

theorem contains_add_bulk_event (now : Nat) (k k' : Key) (e : Event)
    (st : AggState) :
    Dict.contains (add_bulk_event now k e st).bulk_events k' =
      if k = k' then true else Dict.contains st.bulk_events k' := by
  by_cases h : k = k'
  · subst h
    simp [Dict.contains, lookup_add_bulk_event_self]
  · simp [Dict.contains, lookup_add_bulk_event_ne now k k' e st h, h]

theorem export_bulk_events_state (k : Key) (st : AggState) :
    (export_bulk_events k st).1 =
      ⟨Dict.erase st.bulk_events k, Dict.erase st.bulk_timers k⟩ := rfl

theorem export_bulk_events_out (k : Key) (st : AggState) (l : List Event)
    (h : Dict.lookup st.bulk_events k = some l) (hne : l ≠ []) :
    (export_bulk_events k st).2 = some l := by
  simp [export_bulk_events, h, hne]

/-- The state-level well-formedness of the shared maps: dict keys are
    duplicate-free, a window exists exactly when a flush timer does, and
    every existing buffer is non-empty. -/
def GoodState (st : AggState) : Prop :=
  (st.bulk_events.map Prod.fst).Nodup ∧
  (st.bulk_timers.map Prod.fst).Nodup ∧
  (∀ k, Dict.contains st.bulk_events k = Dict.contains st.bulk_timers k) ∧
  (∀ k l, Dict.lookup st.bulk_events k = some l → l ≠ [])

theorem goodState_empty : GoodState emptyAgg := by
  refine ⟨by simp [emptyAgg], by simp [emptyAgg], ?_, ?_⟩
  · intro k; simp [emptyAgg, Dict.contains, Dict.lookup]
  · intro k l h; simp [emptyAgg, Dict.lookup] at h

theorem goodState_add (now : Nat) (k : Key) (e : Event) (st : AggState)
    (hg : GoodState st) : GoodState (add_bulk_event now k e st) := by
  obtain ⟨hnE, hnT, hiff, hne⟩ := hg
  by_cases hc : Dict.contains st.bulk_events k = true
  · refine ⟨?_, ?_, ?_, ?_⟩
    · simp [add_bulk_event, hc, Dict.keys_update, hnE]
    · simp [add_bulk_event, hc, hnT]
    · intro k'
      rw [contains_add_bulk_event, add_bulk_event_timers_of_contains now k e st hc]
      by_cases h' : k = k'
      · subst h'; rw [if_pos rfl, ← hiff k, hc]
      · rw [if_neg h', hiff k']
    · intro k' l hl
      by_cases h' : k = k'
      · subst h'
        rw [lookup_add_bulk_event_self] at hl
        simp at hl
        simp [← hl]
      · rw [lookup_add_bulk_event_ne now k k' e st h'] at hl
        exact hne k' l hl
  · have hc' : Dict.contains st.bulk_events k = false := by simpa using hc
    refine ⟨?_, ?_, ?_, ?_⟩
    · simp only [add_bulk_event, hc', if_neg, Bool.false_eq_true, if_false]
      rw [Dict.keys_update]
      exact Dict.nodup_keys_insert _ _ _ hnE
    · rw [add_bulk_event_timers_of_not_contains now k e st hc']
      exact Dict.nodup_keys_insert _ _ _ hnT
    · intro k'
      rw [contains_add_bulk_event,
          add_bulk_event_timers_of_not_contains now k e st hc',
          Dict.contains_insert]
      by_cases h' : k = k'
      · simp [h']
      · simp [h', hiff k']
    · intro k' l hl
      by_cases h' : k = k'
      · subst h'
        rw [lookup_add_bulk_event_self] at hl
        simp at hl
        simp [← hl]
      · rw [lookup_add_bulk_event_ne now k k' e st h'] at hl
        exact hne k' l hl

theorem goodState_export (k : Key) (st : AggState) (hg : GoodState st) :
    GoodState (export_bulk_events k st).1 := by
  obtain ⟨hnE, hnT, hiff, hne⟩ := hg
  rw [export_bulk_events_state]
  refine ⟨Dict.nodup_keys_erase _ _ hnE, Dict.nodup_keys_erase _ _ hnT, ?_, ?_⟩
  · intro k'
    rw [Dict.contains_erase, Dict.contains_erase]
    by_cases h' : k = k' <;> simp [h', hiff k']
  · intro k' l hl
    rw [Dict.lookup_erase] at hl
    by_cases h' : k = k'
    · simp [h'] at hl
    · rw [if_neg h'] at hl
      exact hne k' l hl

/-- The one-step transition of the window-open flag for key `k` under a
    serialized aggregator operation. -/
def openStep (k : Key) (b : Bool) (op : AggOp) : Bool :=
  match op with
  | .add _ k' _ => if k' = k then true else b
  | .flush k' => if k' = k then false else b

theorem openSince_eq_foldl (ops : List AggOp) (k : Key) :
    openSince ops k = ops.foldl (openStep k) false := rfl

theorem contains_applyOp (st : AggState) (op : AggOp) (k : Key) :
    Dict.contains (applyOp st op).bulk_events k =
      openStep k (Dict.contains st.bulk_events k) op := by
  cases op with
  | add now k' e =>
      rw [applyOp, contains_add_bulk_event, openStep]
  | flush k' =>
      rw [applyOp, export_bulk_events_state, openStep]
      exact Dict.contains_erase st.bulk_events k' k

theorem goodState_applyOp (st : AggState) (op : AggOp) (hg : GoodState st) :
    GoodState (applyOp st op) := by
  cases op with
  | add now k' e => exact goodState_add now k' e st hg
  | flush k' => exact goodState_export k' st hg

theorem foldl_applyOp_spec (ops : List AggOp) : ∀ st : AggState,
    GoodState st →
    GoodState (ops.foldl applyOp st) ∧
    ∀ k, Dict.contains (ops.foldl applyOp st).bulk_events k =
      ops.foldl (openStep k) (Dict.contains st.bulk_events k) := by
  induction ops with
  | nil => intro st hg; exact ⟨hg, fun k => rfl⟩
  | cons op ops ih =>
      intro st hg
      have hg' := goodState_applyOp st op hg
      obtain ⟨h1, h2⟩ := ih (applyOp st op) hg'
      refine ⟨h1, fun k => ?_⟩
      rw [List.foldl_cons, List.foldl_cons, h2 k, contains_applyOp st op k]

/-! ### Helper lemmas about the timed runner and the consumer loop -/

theorem foldl_stepArrival_open (k : Key) (t0 : Nat) (rest : List Arrival) :
    ∀ (acc : List Event) (exps : List ExportRec),
    (∀ a ∈ rest, a.key = k) →
    (∀ a ∈ rest, a.time < t0 + WINDOW_DELAY) →
    rest.foldl stepArrival ⟨⟨[(k, acc)], [(k, ⟨t0⟩)]⟩, exps⟩ =
      ⟨⟨[(k, acc ++ rest.map Arrival.event)], [(k, ⟨t0⟩)]⟩, exps⟩ := by
  induction rest with
  | nil => intro acc exps _ _; simp
  | cons a rest ih =>
      intro acc exps hkeys htimes
      have hak : a.key = k := hkeys a (by simp)
      have hat : a.time < t0 + WINDOW_DELAY := htimes a (by simp)
      have hstep : stepArrival ⟨⟨[(k, acc)], [(k, ⟨t0⟩)]⟩, exps⟩ a =
          ⟨⟨[(k, acc ++ [a.event])], [(k, ⟨t0⟩)]⟩, exps⟩ := by
        have hnd : decide (Timer.deadline ⟨t0⟩ ≤ a.time) = false := by
          simp only [Timer.deadline, decide_eq_false_iff_not]
          omega
        simp [stepArrival, dueKeys, hnd, fireKeys, add_bulk_event,
              Dict.contains, Dict.lookup, Dict.update, hak]
      rw [List.foldl_cons, hstep,
          ih (acc ++ [a.event]) exps
            (fun x hx => hkeys x (by simp [hx]))
            (fun x hx => htimes x (by simp [hx]))]
      simp

theorem consume_messages_append (ps1 ps2 : List Poll) : ∀ st : AggState,
    (consume_messages ps1 st).closed = false →
    consume_messages (ps1 ++ ps2) st =
      ⟨(consume_messages ps1 st).logs ++
         (consume_messages ps2 (consume_messages ps1 st).agg).logs,
       (consume_messages ps2 (consume_messages ps1 st).agg).agg,
       (consume_messages ps1 st).forwards ++
         (consume_messages ps2 (consume_messages ps1 st).agg).forwards,
       (consume_messages ps2 (consume_messages ps1 st).agg).closed⟩ := by
  induction ps1 with
  | nil => intro st _; simp [consume_messages]
  | cons p ps1 ih =>
      intro st h
      cases p with
      | quiet =>
          have h' : (consume_messages ps1 st).closed = false := by
            simpa [consume_messages] using h
          simpa [consume_messages] using ih st h'
      | partitionEof part =>
          have h' : (consume_messages ps1 st).closed = false := by
            simpa [consume_messages] using h
          rw [List.cons_append]
          simp only [consume_messages]
          rw [ih st h']
          simp [consume_messages]
      | brokerErr m =>
          exfalso; simp [consume_messages] at h
      | message time dec http =>
          cases dec with
          | none => exfalso; simp [consume_messages] at h
          | some e =>
              cases hexc : (handle_event time http e st).exc with
              | some exc =>
                  exfalso; simp [consume_messages, hexc] at h
              | none =>
                  have h' : (consume_messages ps1
                      (handle_event time http e st).agg).closed = false := by
                    simpa [consume_messages, hexc] using h
                  rw [List.cons_append]
                  simp only [consume_messages, hexc]
                  rw [ih _ h']
                  simp [consume_messages, hexc]

/-! ### Claim theorems -/

/-- C1: for every non-empty sequence of bulk events sharing one correlation
    key whose arrivals all lie strictly within the fixed 120-second window
    opened by the first of them, the timed run performs exactly one export
    for that key, containing exactly those events in arrival order. -/
theorem claim1_bulk_window_single_export (k : Key) (arrivals : List Arrival)
    (h1 : arrivals ≠ [])
    (hk : ∀ a ∈ arrivals, a.key = k)
    (hlow : ∀ a ∈ arrivals, (arrivals.head h1).time ≤ a.time)
    (hwin : ∀ a ∈ arrivals, a.time < (arrivals.head h1).time + WINDOW_DELAY) :
    (runSystem arrivals).exports = [⟨k, arrivals.map Arrival.event⟩] := by
  cases arrivals with
  | nil => exact absurd rfl h1
  | cons a1 rest =>
      have hk1 : a1.key = k := hk a1 (by simp)
      have hstep1 : stepArrival ⟨emptyAgg, []⟩ a1 =
          ⟨⟨[(k, [a1.event])], [(k, ⟨a1.time⟩)]⟩, []⟩ := by
        simp [stepArrival, dueKeys, emptyAgg, fireKeys, add_bulk_event,
              Dict.contains, Dict.lookup, Dict.insert, Dict.update, hk1]
      have hrun : (a1 :: rest).foldl stepArrival ⟨emptyAgg, []⟩ =
          ⟨⟨[(k, [a1.event] ++ rest.map Arrival.event)], [(k, ⟨a1.time⟩)]⟩, []⟩ := by
        rw [List.foldl_cons, hstep1]
        exact foldl_stepArrival_open k a1.time rest [a1.event] []
          (fun x hx => hk x (by simp [hx]))
          (fun x hx => hwin x (by simp [hx]))
      unfold runSystem
      rw [hrun]
      simp [fireKeys, applyFire, export_bulk_events, Dict.lookup, Dict.erase]

/-- A concrete three-event window for key `J1` at relative times 0, 30, 90. -/
def c1arrivals : List Arrival :=
  [⟨0, some "J1", [("type", "bulk"), ("JourneyID", "J1"), ("p", "1")]⟩,
   ⟨30, some "J1", [("type", "bulk"), ("JourneyID", "J1"), ("p", "2")]⟩,
   ⟨90, some "J1", [("type", "bulk"), ("JourneyID", "J1"), ("p", "3")]⟩]

/-- Witness for C1 at the concrete scenario. -/
theorem claim1_bulk_window_single_export_witness :
    (runSystem c1arrivals).exports =
      [⟨some "J1",
        [[("type", "bulk"), ("JourneyID", "J1"), ("p", "1")],
         [("type", "bulk"), ("JourneyID", "J1"), ("p", "2")],
         [("type", "bulk"), ("JourneyID", "J1"), ("p", "3")]]⟩] :=
  claim1_bulk_window_single_export (some "J1") c1arrivals (by decide)
    (by decide) (by decide) (by decide)

/-- C2: over every serialized history of the two operations that touch the
    shared maps under `bulk_lock` (append on arrival, detach on deadline), a
    window for a key exists iff at least one bulk event for it has been
    buffered with no later completed flush; window and timer entries exist
    for exactly the same keys; the dict key lists are duplicate-free (at most
    one window and one timer per key); and every existing buffer is
    non-empty. -/
theorem claim2_aggregator_invariant (ops : List AggOp) (k : Key) :
    Dict.contains (runOps ops).bulk_events k = openSince ops k ∧
    Dict.contains (runOps ops).bulk_timers k = openSince ops k ∧
    ((runOps ops).bulk_events.map Prod.fst).Nodup ∧
    ((runOps ops).bulk_timers.map Prod.fst).Nodup ∧
    (∀ l, Dict.lookup (runOps ops).bulk_events k = some l → l ≠ []) := by
  obtain ⟨hg, hc⟩ := foldl_applyOp_spec ops emptyAgg goodState_empty
  obtain ⟨hnE, hnT, hiff, hne⟩ := hg
  have hcE : Dict.contains (runOps ops).bulk_events k = openSince ops k := by
    rw [openSince_eq_foldl, runOps, hc k]
    rfl
  refine ⟨hcE, ?_, hnE, hnT, fun l hl => hne k l hl⟩
  rw [runOps, ← hiff k]
  exact hcE

/-- A concrete history: open a window for `J`, flush it, re-open it. -/
def c2ops : List AggOp :=
  [.add 0 (some "J") [("a", "b")], .flush (some "J"),
   .add 5 (some "J") [("c", "d")]]

/-- Witness for C2 at a concrete history, discharging the non-empty-buffer
    hypothesis at the concrete buffer. -/
theorem claim2_aggregator_invariant_witness :
    Dict.contains (runOps c2ops).bulk_events (some "J") =
      openSince c2ops (some "J") ∧
    ([[("c", "d")]] : List Event) ≠ [] :=
  ⟨(claim2_aggregator_invariant c2ops (some "J")).1,
   (claim2_aggregator_invariant c2ops (some "J")).2.2.2.2
     [[("c", "d")]] (by decide)⟩

/-- C7: a bulk event for a key that already has an open window is appended to
    that key's buffer and nothing else changes: the timer map (hence that
    key's flush deadline) is untouched, and every other key's buffer is
    unchanged — the window is fixed, not sliding. -/
theorem claim7_append_preserves_timer_and_frame (st : AggState) (now : Nat)
    (journey_id : Key) (event_data : Event)
    (h : Dict.contains st.bulk_events journey_id = true) :
    (add_bulk_event now journey_id event_data st).bulk_timers =
      st.bulk_timers ∧
    Dict.lookup (add_bulk_event now journey_id event_data st).bulk_events
        journey_id =
      (Dict.lookup st.bulk_events journey_id).map
        (fun buf => buf ++ [event_data]) ∧
    (∀ k', k' ≠ journey_id →
      Dict.lookup (add_bulk_event now journey_id event_data st).bulk_events k' =
        Dict.lookup st.bulk_events k') := by
  refine ⟨add_bulk_event_timers_of_contains now journey_id event_data st h,
    ?_, ?_⟩
  · obtain ⟨l, hl⟩ :=
      Option.isSome_iff_exists.mp (by simpa [Dict.contains] using h)
    rw [lookup_add_bulk_event_self, hl]
    simp
  · intro k' hk'
    exact lookup_add_bulk_event_ne now journey_id k' event_data st
      (Ne.symm hk')

/-- A state with open windows for `J1` and `J2`. -/
def c7state : AggState :=
  add_bulk_event 10 (some "J2") [("q", "2")]
    (add_bulk_event 0 (some "J1") [("q", "1")] emptyAgg)

/-- Witness for C7: appending to `J1`'s open window leaves the timers and
    `J2`'s buffer alone. -/
theorem claim7_append_preserves_timer_and_frame_witness :
    (add_bulk_event 40 (some "J1") [("q", "3")] c7state).bulk_timers =
      c7state.bulk_timers ∧
    Dict.lookup (add_bulk_event 40 (some "J1") [("q", "3")] c7state).bulk_events
        (some "J1") =
      (Dict.lookup c7state.bulk_events (some "J1")).map
        (fun buf => buf ++ [[("q", "3")]]) ∧
    (∀ k', k' ≠ some "J1" →
      Dict.lookup (add_bulk_event 40 (some "J1") [("q", "3")] c7state).bulk_events
          k' =
        Dict.lookup c7state.bulk_events k') :=
  claim7_append_preserves_timer_and_frame c7state 40 (some "J1")
    [("q", "3")] (by decide)

/-- C8: the two routes are mutually exclusive by declared type: a
    stream-typed event leaves the aggregator state untouched (it is never
    buffered) and goes through exactly one immediate forward, while a
    bulk-typed event makes no forward call and is buffered via
    `add_bulk_event`. -/
theorem claim8_routes_mutually_exclusive (now : Nat) (http : HttpOutcome)
    (event_data : Event) (st : AggState) :
    (dict_get event_data "type" = some "stream" →
      (handle_event now http event_data st).agg = st ∧
      (handle_event now http event_data st).forwards =
        [(json_dumps event_data, http)]) ∧
    (dict_get event_data "type" = some "bulk" →
      (handle_event now http event_data st).forwards = [] ∧
      (handle_event now http event_data st).agg =
        add_bulk_event now (dict_get event_data "JourneyID") event_data st) := by
  constructor
  · intro h
    rcases hsend : send_to_sfmc (json_dumps event_data) http with ⟨lgs, exc⟩
    simp [handle_event, h, hsend]
  · intro h
    simp [handle_event, h]

/-- Witness for C8 at one stream-typed and one bulk-typed event. -/
theorem claim8_routes_mutually_exclusive_witness :
    ((handle_event 0 (.response 200 "ok")
        [("type", "stream"), ("JourneyID", "J1")] emptyAgg).agg = emptyAgg ∧
     (handle_event 0 (.response 200 "ok")
        [("type", "stream"), ("JourneyID", "J1")] emptyAgg).forwards =
       [(json_dumps [("type", "stream"), ("JourneyID", "J1")],
         .response 200 "ok")]) ∧
    ((handle_event 0 (.response 200 "ok")
        [("type", "bulk"), ("JourneyID", "J1")] emptyAgg).forwards = [] ∧
     (handle_event 0 (.response 200 "ok")
        [("type", "bulk"), ("JourneyID", "J1")] emptyAgg).agg =
       add_bulk_event 0
         (dict_get [("type", "bulk"), ("JourneyID", "J1")] "JourneyID")
         [("type", "bulk"), ("JourneyID", "J1")] emptyAgg) :=
  ⟨(claim8_routes_mutually_exclusive 0 (.response 200 "ok")
      [("type", "stream"), ("JourneyID", "J1")] emptyAgg).1 (by decide),
   (claim8_routes_mutually_exclusive 0 (.response 200 "ok")
      [("type", "bulk"), ("JourneyID", "J1")] emptyAgg).2 (by decide)⟩

/-- C10: a bulk event whose payload has no `JourneyID` field is not rejected:
    it is buffered under the single missing-key value (Python `None`), all
    such events share one window, and the artifact path `generate_csv`
    derives for that window is the one derived from the missing-key value,
    `/tmp/None.csv`. -/
theorem claim10_missing_key_shared_window (e1 e2 : Event) (t1 t2 : Nat)
    (http1 http2 : HttpOutcome)
    (h1t : dict_get e1 "type" = some "bulk")
    (h1j : dict_get e1 "JourneyID" = none)
    (h2t : dict_get e2 "type" = some "bulk")
    (h2j : dict_get e2 "JourneyID" = none) :
    (handle_event t1 http1 e1 emptyAgg).agg =
      add_bulk_event t1 none e1 emptyAgg ∧
    Dict.lookup (handle_event t2 http2 e2
        (handle_event t1 http1 e1 emptyAgg).agg).agg.bulk_events none =
      some [e1, e2] ∧
    (∀ es csvf, generate_csv none es = .ok csvf →
      csvf.path = "/tmp/None.csv") := by
  have hfst : (handle_event t1 http1 e1 emptyAgg).agg =
      add_bulk_event t1 none e1 emptyAgg := by
    simp [handle_event, h1t, h1j]
  refine ⟨hfst, ?_, ?_⟩
  · rw [hfst]
    have h1 : add_bulk_event t1 none e1 emptyAgg =
        ⟨[(none, [e1])], [(none, ⟨t1⟩)]⟩ := by
      simp [add_bulk_event, emptyAgg, Dict.contains, Dict.lookup,
            Dict.insert, Dict.update]
    rw [h1]
    simp [handle_event, h2t, h2j, add_bulk_event, Dict.contains,
          Dict.lookup, Dict.update]
  · intro es csvf hok
    cases es with
    | nil => simp [generate_csv] at hok
    | cons e0 es =>
        simp only [generate_csv] at hok
        cases hw : writerows (e0.map Prod.fst) (e0 :: es) with
        | error exc => rw [hw] at hok; cases hok
        | ok rows =>
            rw [hw] at hok
            cases hok
            show "/tmp/" ++ pyStr none ++ ".csv" = "/tmp/None.csv"
            decide

/-- Witness for C10 at two concrete keyless bulk events. -/
theorem claim10_missing_key_shared_window_witness :
    (handle_event 0 (.response 200 "ok")
        [("type", "bulk"), ("x", "1")] emptyAgg).agg =
      add_bulk_event 0 none [("type", "bulk"), ("x", "1")] emptyAgg ∧
    Dict.lookup (handle_event 7 (.response 200 "ok")
        [("type", "bulk"), ("y", "2")]
        (handle_event 0 (.response 200 "ok")
          [("type", "bulk"), ("x", "1")] emptyAgg).agg).agg.bulk_events none =
      some [[("type", "bulk"), ("x", "1")], [("type", "bulk"), ("y", "2")]] ∧
    (⟨"/tmp/None.csv", ["type", "x"], [["bulk", "1"]]⟩ : CsvFile).path =
      "/tmp/None.csv" := by
  obtain ⟨ha, hb, hc⟩ := claim10_missing_key_shared_window
    [("type", "bulk"), ("x", "1")] [("type", "bulk"), ("y", "2")] 0 7
    (.response 200 "ok") (.response 200 "ok")
    (by decide) (by decide) (by decide) (by decide)
  exact ⟨ha, hb, hc [[("type", "bulk"), ("x", "1")]]
    ⟨"/tmp/None.csv", ["type", "x"], [["bulk", "1"]]⟩ (by rfl)⟩

/-- Rows produced by the `writerow` loop when every event's field names are
    among the fieldnames taken from the first event. -/
theorem writerows_ok (fieldnames : List String) (events : List Event)
    (h : ∀ e ∈ events, ∀ p ∈ e, p.1 ∈ fieldnames) :
    writerows fieldnames events =
      .ok (events.map (fun e =>
        fieldnames.map (fun f => (dict_get e f).getD ""))) := by
  induction events with
  | nil => rfl
  | cons e es ih =>
      have he : ∀ p ∈ e, p.1 ∈ fieldnames := h e (by simp)
      rw [writerows, dictwriter_row, if_pos he,
          ih (fun x hx => h x (by simp [hx]))]
      simp

/-- C3 counterexample: a malformed payload between two valid stream messages.
    The claim says a malformed payload never terminates the consumption loop
    and valid messages on either side are processed normally; in the source
    the `try` wraps the whole `while True`, so the decode failure ends the
    loop (`closed = true`) and the valid message after it is never forwarded
    (only the first message's forward happened). -/
def c3polls : List Poll :=
  [.message 0 (some [("type", "stream"), ("JourneyID", "A")]) (.response 200 "ok"),
   .message 1 none (.response 200 "ok"),
   .message 2 (some [("type", "stream"), ("JourneyID", "B")]) (.response 200 "ok")]

/-- C3 is false on the code: the loop terminates at the malformed payload and
    the valid message behind it is not processed. -/
theorem claim3_malformed_terminates_loop_cex :
    (consume_messages c3polls emptyAgg).closed = true ∧
    (consume_messages c3polls emptyAgg).forwards =
      [(json_dumps [("type", "stream"), ("JourneyID", "A")],
        .response 200 "ok")] :=
  ⟨rfl, rfl⟩

/-- C3 amended: on a malformed payload the decode failure is logged
    (`"Error while consuming messages: ..."`) and the loop terminates —
    the consumer is closed, messages before the malformed one were processed
    normally, and every message after it is not processed at all. -/
theorem claim3_malformed_logged_loop_terminates (ps1 ps2 : List Poll)
    (st : AggState) (t : Nat) (http : HttpOutcome)
    (h : (consume_messages ps1 st).closed = false) :
    consume_messages (ps1 ++ Poll.message t none http :: ps2) st =
      ⟨(consume_messages ps1 st).logs ++
         [⟨.error, "Error while consuming messages: " ++ excText .decodeError⟩],
       (consume_messages ps1 st).agg,
       (consume_messages ps1 st).forwards, true⟩ := by
  rw [consume_messages_append ps1 (Poll.message t none http :: ps2) st h]
  simp [consume_messages]

/-- Witness for the amended C3 at a concrete malformed poll. -/
theorem claim3_malformed_logged_loop_terminates_witness :
    consume_messages [Poll.message 0 none (.response 200 "")] emptyAgg =
      ⟨[⟨.error, "Error while consuming messages: " ++ excText .decodeError⟩],
       emptyAgg, [], true⟩ :=
  claim3_malformed_logged_loop_terminates [] [] emptyAgg 0
    (.response 200 "") (by rfl)

/-- C4 counterexample: a stream event whose forward fails at the network
    level, followed by a valid stream event.  The claim says a forward
    failure never prevents later events from being processed; in the source a
    `requests.post` exception propagates into the loop's `except`, so the
    loop closes and the second event is never forwarded. -/
def c4polls : List Poll :=
  [.message 0 (some [("type", "stream"), ("v", "1")]) (.netFail "connection refused"),
   .message 1 (some [("type", "stream"), ("v", "2")]) (.response 200 "ok")]

/-- C4 is false on the code for network failures: the loop terminates and the
    subsequent event is not processed. -/
theorem claim4_network_failure_stops_loop_cex :
    (consume_messages c4polls emptyAgg).closed = true ∧
    (consume_messages c4polls emptyAgg).forwards =
      [(json_dumps [("type", "stream"), ("v", "1")],
        .netFail "connection refused")] :=
  ⟨rfl, rfl⟩

/-- C4 amended: a non-success HTTP response is only logged — one post, no
    retry — and the consumer goes on to process the remaining polls exactly
    as if the forward had succeeded; a network failure, by contrast, is
    logged as a consumer-loop error and terminates the loop, so no
    subsequent event is processed. -/
theorem claim4_forward_failure_behavior (e : Event) (status : Nat)
    (text m : String) (t : Nat) (ps : List Poll) (st : AggState)
    (hstream : dict_get e "type" = some "stream") (hbad : status ≠ 200) :
    consume_messages (Poll.message t (some e) (.response status text) :: ps) st =
      ⟨⟨.info, "Received message: " ++ json_dumps e⟩ ::
         ⟨.error, "Error sending event to SFMC: " ++ toString status ++ " " ++ text⟩ ::
         (consume_messages ps st).logs,
       (consume_messages ps st).agg,
       (json_dumps e, HttpOutcome.response status text) ::
         (consume_messages ps st).forwards,
       (consume_messages ps st).closed⟩ ∧
    consume_messages (Poll.message t (some e) (.netFail m) :: ps) st =
      ⟨[⟨.info, "Received message: " ++ json_dumps e⟩,
        ⟨.error, "Error while consuming messages: " ++ m⟩],
       st, [(json_dumps e, HttpOutcome.netFail m)], true⟩ := by
  constructor
  · simp [consume_messages, handle_event, hstream, send_to_sfmc, hbad]
  · simp [consume_messages, handle_event, hstream, send_to_sfmc, excText]

/-- Witness for the amended C4 at a concrete 500 response and a concrete
    network failure. -/
theorem claim4_forward_failure_behavior_witness :
    consume_messages
        [Poll.message 0 (some [("type", "stream"), ("v", "1")])
          (.response 500 "oops")] emptyAgg =
      ⟨[⟨.info, "Received message: " ++ json_dumps [("type", "stream"), ("v", "1")]⟩,
        ⟨.error, "Error sending event to SFMC: " ++ toString 500 ++ " " ++ "oops"⟩],
       emptyAgg,
       [(json_dumps [("type", "stream"), ("v", "1")], HttpOutcome.response 500 "oops")],
       false⟩ ∧
    consume_messages
        [Poll.message 0 (some [("type", "stream"), ("v", "1")])
          (.netFail "down")] emptyAgg =
      ⟨[⟨.info, "Received message: " ++ json_dumps [("type", "stream"), ("v", "1")]⟩,
        ⟨.error, "Error while consuming messages: " ++ "down"⟩],
       emptyAgg,
       [(json_dumps [("type", "stream"), ("v", "1")], HttpOutcome.netFail "down")],
       true⟩ :=
  claim4_forward_failure_behavior [("type", "stream"), ("v", "1")] 500
    "oops" "down" 0 [] emptyAgg (by rfl) (by decide)

/-- C5 counterexample: an event with type `"other"`.  The claim says such an
    event is dropped **with a logged warning**; in the source the if/elif in
    `handle_event` has no else branch, so the drop is silent — the only log
    line for the whole message is the consumer's info line, and no warning is
    emitted anywhere. -/
def c5event : Event := [("type", "other"), ("JourneyID", "J")]

/-- C5 is false on the code: processing the unknown-typed message emits
    exactly the info receive line — no warning — while the event is indeed
    neither forwarded nor buffered. -/
theorem claim5_no_warning_logged_cex :
    handle_event 0 (.response 200 "ok") c5event emptyAgg =
      ⟨[], emptyAgg, [], none⟩ ∧
    consume_messages [Poll.message 0 (some c5event) (.response 200 "ok")]
        emptyAgg =
      ⟨[⟨.info, "Received message: " ++ json_dumps c5event⟩],
       emptyAgg, [], false⟩ :=
  ⟨rfl, rfl⟩

/-- C5 amended: an event whose type is neither `"stream"` nor `"bulk"` (or
    missing) is dropped silently: it is not forwarded, not buffered, raises
    nothing, and no log line — in particular no warning — is emitted by the
    router; the consumer loop adds only its usual info receive line and
    continues unchanged. -/
theorem claim5_unknown_type_dropped_silently (e : Event) (t : Nat)
    (http : HttpOutcome) (st : AggState) (ps : List Poll)
    (h1 : dict_get e "type" ≠ some "stream")
    (h2 : dict_get e "type" ≠ some "bulk") :
    handle_event t http e st = ⟨[], st, [], none⟩ ∧
    consume_messages (Poll.message t (some e) http :: ps) st =
      ⟨⟨.info, "Received message: " ++ json_dumps e⟩ ::
         (consume_messages ps st).logs,
       (consume_messages ps st).agg,
       (consume_messages ps st).forwards,
       (consume_messages ps st).closed⟩ := by
  have hh : handle_event t http e st = ⟨[], st, [], none⟩ := by
    simp [handle_event, h1, h2]
  refine ⟨hh, ?_⟩
  simp [consume_messages, hh]

/-- Witness for the amended C5 at a concrete missing-type event. -/
theorem claim5_unknown_type_dropped_silently_witness :
    handle_event 3 (.response 200 "ok") [("JourneyID", "K")] emptyAgg =
      ⟨[], emptyAgg, [], none⟩ ∧
    consume_messages [Poll.message 3 (some [("JourneyID", "K")]) (.response 200 "ok")]
        emptyAgg =
      ⟨[⟨.info, "Received message: " ++ json_dumps [("JourneyID", "K")]⟩],
       emptyAgg, [], false⟩ :=
  claim5_unknown_type_dropped_silently [("JourneyID", "K")] 3
    (.response 200 "ok") emptyAgg [] (by decide) (by decide)

/-- C6 counterexample: the claim says a second termination signal does not
    crash and shutdown exits 0; in the source the handler unconditionally
    `os.unlink`s the three temporary files, so its second invocation raises
    `FileNotFoundError` on the first unlink instead of exiting. -/
theorem claim6_second_signal_crashes_cex :
    (signal_handler (signal_handler initialProc).1).2 =
      .raised (.fileNotFoundError "temp_cafile") := rfl

/-- C6 amended: the first signal delivery closes the consumer, deletes the
    three temporary credential files and exits with status 0; the handler is
    not idempotent — a second delivery re-attempts the first unlink and
    raises `FileNotFoundError`, never reaching `sys.exit(0)`. -/
theorem claim6_shutdown_first_exits_second_raises :
    signal_handler initialProc =
      (⟨true, false, false, false⟩, .exited 0) ∧
    (signal_handler (signal_handler initialProc).1).2 =
      .raised (.fileNotFoundError "temp_cafile") :=
  ⟨rfl, rfl⟩

/-- C9 counterexample: a flushed two-event window whose second event has a
    field not among the first event's field names.  The claim says every
    flushed non-empty window yields an artifact with one data row per event
    followed by the upload call; here `csv.DictWriter.writerow` raises
    `ValueError` on the second event, so no complete artifact is produced
    and the upload is never reached. -/
def c9badstate : AggState :=
  add_bulk_event 0 (some "J") [("b", "2")]
    (add_bulk_event 0 (some "J") [("a", "1")] emptyAgg)

/-- C9 is false on the code for heterogeneous field sets: the export stage
    fails with `ValueError` instead of producing a row per event and
    uploading. -/
theorem claim9_mismatched_fields_export_fails_cex :
    (export_bulk_events (some "J") c9badstate).2 =
      some [[("a", "1")], [("b", "2")]] ∧
    run_export (some "J") [[("a", "1")], [("b", "2")]] =
      .error (.valueError "dict contains fields not in fieldnames") :=
  ⟨rfl, rfl⟩

/-- C9 amended: for every flushed window with a non-empty event list in which
    every event's field names are among the first event's field names, the
    flush detaches exactly that list and the export stage produces a tabular
    artifact whose header row is the first event's field names with exactly
    one data row per event (missing fields written as the empty rest value),
    at the local path determined by the correlation key, and then calls the
    sink upload with that path and the key. -/
theorem claim9_export_artifact_shape (k : Key) (e0 : Event) (es : List Event)
    (st : AggState)
    (hst : Dict.lookup st.bulk_events k = some (e0 :: es))
    (hfields : ∀ e ∈ es, ∀ p ∈ e, p.1 ∈ e0.map Prod.fst) :
    (export_bulk_events k st).2 = some (e0 :: es) ∧
    run_export k (e0 :: es) =
      .ok (⟨"/tmp/" ++ pyStr k ++ ".csv", e0.map Prod.fst,
            (e0 :: es).map (fun e =>
              (e0.map Prod.fst).map (fun f => (dict_get e f).getD ""))⟩,
           ⟨"/tmp/" ++ pyStr k ++ ".csv", k⟩) := by
  refine ⟨export_bulk_events_out k st (e0 :: es) hst (by simp), ?_⟩
  have hall : ∀ e ∈ e0 :: es, ∀ p ∈ e, p.1 ∈ e0.map Prod.fst := by
    intro e he
    rcases List.mem_cons.mp he with h | h
    · subst h
      exact fun p hp => List.mem_map_of_mem Prod.fst hp
    · exact hfields e h
  rw [run_export, generate_csv]
  rw [writerows_ok (e0.map Prod.fst) (e0 :: es) hall]
  rfl

/-- A state holding a homogeneous two-event window for key `J9`. -/
def c9state : AggState :=
  ⟨[(some "J9", [[("a", "1"), ("b", "2")], [("a", "3")]])],
   [(some "J9", ⟨0⟩)]⟩

/-- Witness for the amended C9: the flushed window is exported as a header
    row, one row per event (missing `b` written empty), at `/tmp/J9.csv`,
    followed by the upload call. -/
theorem claim9_export_artifact_shape_witness :
    (export_bulk_events (some "J9") c9state).2 =
      some [[("a", "1"), ("b", "2")], [("a", "3")]] ∧
    run_export (some "J9") [[("a", "1"), ("b", "2")], [("a", "3")]] =
      .ok (⟨"/tmp/J9.csv", ["a", "b"], [["1", "2"], ["3", ""]]⟩,
           ⟨"/tmp/J9.csv", some "J9"⟩) :=
  claim9_export_artifact_shape (some "J9") [("a", "1"), ("b", "2")]
    [[("a", "3")]] c9state (by rfl) (by decide)
